import Mathlib

/-!
# snitch-client-go-echo: capture, cache and report pipeline

A shallow embedding of the Go sources under `src/` and the properties
checked against them.

Modelling conventions.

* A Go `string` and a Go `[]byte` are both a Lean `String`.  The code only
  concatenates byte sequences, uses them as map keys, tests them with
  `strings.HasPrefix` against the ASCII constants `"OK"` / `"ERROR"` and
  cuts them with `strings.Split` at the ASCII separator `":"`; on UTF-8 text
  these agree with the character-level operations used here.
* The cache's `map[string]ApiCall` is a function `String → Option ApiCall`;
  index, assignment and `delete` are lookup and pointwise update.
* A Go value of type `map[string][]string` (headers, query parameters, form
  values) is nil or a reference to a map object; the map objects live in a
  `Heap`, so that a record and the request it was taken from can hold the
  same object.  The cookie map is made by `cookiesFromRequest` and held by
  the record alone; it is an association list.
* `int64` values are integers; arithmetic results are wrapped with
  `wrapInt64` (two's complement, 64 bits).
* A run-time panic is `Except.error`; a goroutine blocked on a channel is
  `none`.
* The clock, the UUID generator, the JSON encoder for non-nil values, the
  framework's response object and the host handler are outside the
  repository and enter the definitions as parameters.
* One request is followed from entry to exit; other goroutines do not touch
  the reporter in between.
-/

namespace apisnitch

/-! ## Go library operations used by the code -/

namespace strings

/-- Go `strings.HasPrefix(s, prefix)`. -/
def HasPrefix (s pre : String) : Bool :=
  pre.data.isPrefixOf s.data

/-- Character-level worker of `Split` for a one-character separator: the
pieces of `s` between the occurrences of `sep`, in order.  An input without
the separator (the empty input included) gives exactly one piece. -/
def splitChars (sep : Char) : List Char → List (List Char)
  | [] => [[]]
  | c :: cs =>
    if c = sep then [] :: splitChars sep cs
    else
      match splitChars sep cs with
      | [] => [[c]]
      | p :: ps => (c :: p) :: ps

/-- Go `strings.Split(s, sep)` for a separator of one character, which is
how the code calls it (`strings.Split(messageStr, ":")`). -/
def Split (s : String) (sep : Char) : List String :=
  (splitChars sep s.data).map String.mk

end strings

/-- Two's-complement wrap-around of an integer into the `int64` range. -/
def wrapInt64 (x : Int) : Int :=
  (x + 2 ^ 63) % 2 ^ 64 - 2 ^ 63

/-- Content of a Go map object of type `map[string][]string` (`http.Header`,
`url.Values`). -/
abbrev Values := List (String × List String)

/-- Address of a map object. -/
abbrev MapRef := Nat

/-- Go value of type `map[string][]string`: nil (`none`) or a reference to a
map object. -/
abbrev GoMap := Option MapRef

/-- The map objects: the content at each address and the first address not
yet in use. -/
structure Heap where
  content : MapRef → Values
  free : MapRef

/-- A new map object with the given content; the result is the heap
afterwards and the reference to the object. -/
def Heap.make (h : Heap) (v : Values) : Heap × GoMap :=
  ({ content := fun a => if a = h.free then v else h.content a, free := h.free + 1 },
    some h.free)

/-- A change made to the map object at an address, after which the object
has the content `v`. -/
def Heap.store (h : Heap) (a : MapRef) (v : Values) : Heap :=
  { h with content := fun x => if x = a then v else h.content x }

/-- Content seen through a map value; nil reads as empty. -/
def Heap.read (h : Heap) (m : GoMap) : Values :=
  match m with
  | none => []
  | some a => h.content a

/-! ## Record model (`request.go`, `response.go`, `api-call.go`) -/

/-- Go `Request` of `request.go`. -/
structure Request where
  Host : String := ""
  Path : String := ""
  Method : String := ""
  Protocol : String := ""
  QueryParams : GoMap := none
  BodySize : Int := 0
  Body : String := ""
  Headers : GoMap := none
  FormValues : GoMap := none
  RemoteAddress : String := ""
  UserAgent : String := ""
  Cookies : List (String × String) := []
  Referer : String := ""
  deriving DecidableEq, Repr

/-- Go `Response` of `response.go`. -/
structure Response where
  Status : Int := 0
  BodySize : Int := 0
  Headers : GoMap := none
  Body : String := ""
  deriving DecidableEq, Repr

/-- Go `ApiCall` of `api-call.go`. -/
structure ApiCall where
  ApiPath : String := ""
  ApiMethod : String := ""
  RequestID : String := ""
  Request : Request := {}
  Response : Response := {}
  Timestamp : Int := 0
  DurationMicro : Int := 0
  Finalized : Bool := false
  deriving DecidableEq, Repr

/-- Go `NewApiCall`: the four given fields, every other field at its zero
value. -/
def NewApiCall (apiPath apiMethod requestID : String) (timestamp : Int) : ApiCall :=
  { RequestID := requestID
    ApiPath := apiPath
    ApiMethod := apiMethod
    Timestamp := timestamp }

/-! ## Correlation cache (`cache.go`) -/

/-- The `cacheMap map[string]ApiCall` of `apiCallCache`. -/
abbrev apiCallCache := String → Option ApiCall

/-- Go `NewApiCallCache`: the empty map. -/
def NewApiCallCache : apiCallCache := fun _ => none

/-- Go map assignment `m[k] = v`. -/
def mapSet (m : apiCallCache) (k : String) (v : ApiCall) : apiCallCache :=
  fun x => if x = k then some v else m x

/-- Go `delete(m, k)`. -/
def mapDelete (m : apiCallCache) (k : String) : apiCallCache :=
  fun x => if x = k then none else m x

/-- Go `apiCallCache.CreateApiCall`; `nowMilli` is `time.Now().UnixMilli()`. -/
def apiCallCache.CreateApiCall (c : apiCallCache) (nowMilli : Int) (requestID apiPath apiMethod : String)
    (request : Request) : apiCallCache :=
  let apiCall := NewApiCall apiPath apiMethod requestID nowMilli
  let apiCall := { apiCall with Request := request }
  mapSet c requestID apiCall

/-- Go `apiCallCache.FinalizeApiCall`; `nowMicro` is `time.Now().UnixMicro()`.
The result is the cache afterwards and the returned pointer (`none` for
`nil`). -/
def apiCallCache.FinalizeApiCall (c : apiCallCache) (nowMicro : Int) (requestID : String)
    (response : Response) : apiCallCache × Option ApiCall :=
  match c requestID with
  | none => (c, none)
  | some call =>
    let call := { call with Response := response }
    let call := { call with
      DurationMicro := wrapInt64 (nowMicro - wrapInt64 (call.Timestamp * 1000)) }
    let call := { call with Finalized := true }
    (mapSet c requestID call, some call)

/-- Go `apiCallCache.DeleteApiCall`; the returned error is always `nil` and is
left out. -/
def apiCallCache.DeleteApiCall (c : apiCallCache) (requestID : String) : apiCallCache :=
  match c requestID with
  | none => c
  | some _ => mapDelete c requestID

/-! ## Reporter (`reporter.go`) -/

/-- Go `reporter`.  `messageOut` is the channel of outbound messages: `none`
is the nil channel of a reporter that has not run `Start`, `some q` holds the
buffered messages, oldest first.  The websocket connection is not modelled. -/
structure reporter where
  serviceURL : String
  apiSecret : String
  apiCallCache : apiCallCache
  messageOut : Option (List String)

/-- Go `NewReporter`. -/
def NewReporter (serviceURL apiSecret : String) (cache : apiCallCache) : reporter :=
  { serviceURL := serviceURL, apiSecret := apiSecret, apiCallCache := cache,
    messageOut := none }

/-- Capacity of the channel made in `Start`: `make(chan []byte, 100)`. -/
def messageOutCap : Nat := 100

/-- The first statement of `reporter.Start`: the outbound channel is made. -/
def reporter.makeMessageOut (r : reporter) : reporter :=
  { r with messageOut := some [] }

/-- Go channel send `ch <- m` on a buffered channel of capacity `cap`, as
seen by the sender alone: the message is appended when there is room; on a
nil channel or a full buffer the sender does not proceed (`none`). -/
def chanSend (cap : Nat) (ch : Option (List String)) (m : String) :
    Option (List String) :=
  match ch with
  | none => none
  | some q => if q.length < cap then some (q ++ [m]) else none

/-- Go `json.Marshal` applied to a `*ApiCall`: a nil pointer encodes as the
JSON value `null`; a non-nil pointer encodes as the value pointed to, which
is the work of the encoder `encode` (outside the repository). -/
def jsonMarshal (encode : ApiCall → Except String String) :
    Option ApiCall → Except String String
  | none => .ok "null"
  | some call => encode call

/-- Go `reporter.CreateApiCall`. -/
def reporter.CreateApiCall (r : reporter) (nowMilli : Int)
    (requestID apiPath apiMethod : String) (request : Request) : reporter :=
  { r with apiCallCache :=
      r.apiCallCache.CreateApiCall nowMilli requestID apiPath apiMethod request }

/-- Go `reporter.FinalizeApiCall`.  The result is `none` when the caller stays
blocked on the channel send. -/
def reporter.FinalizeApiCall (encode : ApiCall → Except String String) (r : reporter)
    (nowMicro : Int) (reqID : String) (response : Response) : Option reporter :=
  let (cache, apiCall) := r.apiCallCache.FinalizeApiCall nowMicro reqID response
  let r := { r with apiCallCache := cache }
  match jsonMarshal encode apiCall with
  | .error _ => some r
  | .ok j =>
    match chanSend messageOutCap r.messageOut j with
    | none => none
    | some q => some { r with messageOut := some q }

/-! ### Reader loop body (`Start`) -/

/-- Run-time panics the modelled code can raise: an index outside a slice,
and a single-value type assertion `x.(T)` on a value that is not a `T`
(`wanted` names `T`). -/
inductive Panic where
  | indexOutOfRange (index len : Nat)
  | interfaceConversion (wanted : String)
  deriving DecidableEq, Repr

/-- One iteration of the reader loop of `reporter.Start` after a successful
`ReadMessage`: how the received text `messageStr` acts on the cache.
`parts[1]` panics when `parts` has fewer than two elements. -/
def handleMessage (cache : apiCallCache) (messageStr : String) :
    Except Panic apiCallCache :=
  if strings.HasPrefix messageStr "OK" then
    let parts := strings.Split messageStr ':'
    match parts.get? 1 with
    | none => .error (.indexOutOfRange 1 parts.length)
    | some requestID => .ok (apiCallCache.DeleteApiCall cache requestID)
  else if strings.HasPrefix messageStr "ERROR" then
    .ok cache
  else
    .ok cache

/-! ## Interceptor (`interceptor.go`) -/

/-- An `io.Reader` holding a request body: the bytes not yet read, and whether
the stream ends with a read error instead of end-of-file. -/
structure Reader where
  unread : String := ""
  failing : Bool := false
  deriving DecidableEq, Repr

/-- Go `io.ReadAll(r)`: everything up to the end of the stream, the error (if
the stream ends with one), and the reader afterwards, which has nothing left
to deliver. -/
def ReadAll (r : Reader) : String × Bool × Reader :=
  (r.unread, r.failing, { r with unread := "" })

/-- Go `http.Cookie`, the two fields the code reads. -/
structure Cookie where
  Name : String
  Value : String
  deriving DecidableEq, Repr

/-- The attributes of `*http.Request` that the interceptor reads.  `URLPath`,
`UserAgent`, `Cookies` and `Referer` stand for `URL.Path`, `UserAgent()`,
`Cookies()` and `Referer()`.  `URLQuery` is the content of the map that
`URL.Query()` makes from the raw query (a new map object at each call).
`Header` and `Form` are the request's own map values.  `ContextRequestID` is
`Context().Value(RequestIDKey)` when that is a string, and `none` when the
request's context carries no such value. -/
structure httpRequest where
  Method : String := ""
  Host : String := ""
  Proto : String := ""
  RemoteAddr : String := ""
  ContentLength : Int := 0
  URLPath : String := ""
  URLQuery : Values := []
  Header : GoMap := none
  Form : GoMap := none
  UserAgent : String := ""
  Cookies : List Cookie := []
  Referer : String := ""
  Body : Reader := {}
  ContextRequestID : Option String := none
  deriving DecidableEq, Repr

/-- What the code uses of the framework's response object `echo.Response`,
whose state is `σ`: its `Write` method (new state, byte count, error) and the
`Status`, `Size` and `Header()` it reports. -/
structure ResponseOps (σ : Type) where
  Write : σ → String → σ × Nat × Option String
  Status : σ → Int
  Size : σ → Int
  Header : σ → GoMap

/-- Go `responseWriter`: the embedded `echo.Response` (a copy) and the capture
buffer. -/
structure responseWriter (σ : Type) where
  Response : σ
  body : String

/-- Go `newResponseWriter`. -/
def newResponseWriter {σ : Type} (w : σ) : responseWriter σ :=
  { Response := w, body := "" }

/-- Go `responseWriter.Write`: append to the buffer, then return what the
embedded response's `Write` returns. -/
def responseWriter.Write {σ : Type} (ops : ResponseOps σ) (w : responseWriter σ)
    (b : String) : responseWriter σ × Nat × Option String :=
  let w := { w with body := w.body ++ b }
  let (resp, n, err) := ops.Write w.Response b
  ({ w with Response := resp }, n, err)

/-- Go `responseWriter.WriteString`: `return w.body.WriteString(s)`, which
appends to the buffer and returns `len(s)` and a nil error. -/
def responseWriter.WriteString {σ : Type} (w : responseWriter σ) (s : String) :
    responseWriter σ × Nat × Option String :=
  ({ w with body := w.body ++ s }, s.utf8ByteSize, none)

/-- The value of the field `c.Response().Writer`, an `http.ResponseWriter`:
the capture wrapper (a `*responseWriter`), or a writer of any other type. -/
inductive ResponseWriter (σ : Type) where
  | capture (w : responseWriter σ)
  | other

/-- The part of `echo.Context` the interceptor works on: the request, the
route template `c.Path()`, the response object `c.Response()` and its
`Writer` field. -/
structure echoContext (σ : Type) where
  Request : httpRequest
  Path : String
  Response : σ
  Writer : ResponseWriter σ

/-- Go map assignment `m[k] = v` on a map carried as an association list. -/
def assocSet (m : List (String × String)) (k v : String) : List (String × String) :=
  match m with
  | [] => [(k, v)]
  | (k', v') :: rest => if k' = k then (k, v) :: rest else (k', v') :: assocSet rest k v

/-- Go `cookiesFromRequest`. -/
def cookiesFromRequest (cookies : List Cookie) : List (String × String) :=
  cookies.foldl (fun cookieMap cookie => assocSet cookieMap cookie.Name cookie.Value) []

/-- Go `recordEchoRequest`.  The type assertion on the context value panics
when there is no string under `RequestIDKey`.  `URL.Query()` makes a new map
object; the header and form maps are taken as they are, by reference.
Reading the body advances the request's body stream, so the heap and the
context afterwards are part of the result. -/
def recordEchoRequest {σ : Type} (r : reporter) (nowMilli : Int) (h : Heap)
    (c : echoContext σ) : Except Panic (reporter × Heap × echoContext σ) :=
  match c.Request.ContextRequestID with
  | none => .error (.interfaceConversion "string")
  | some reqID =>
    let apiPath := c.Path
    let apiMethod := c.Request.Method
    let requestHost := c.Request.Host
    let requestBodySize := c.Request.ContentLength
    let requestPath := c.Request.URLPath
    let requestHeaders := c.Request.Header
    let (h, requestQueryParams) := h.make c.Request.URLQuery
    let requestFormValues := c.Request.Form
    let requestRemoteAddress := c.Request.RemoteAddr
    let requestUserAgent := c.Request.UserAgent
    let requestCookies := cookiesFromRequest c.Request.Cookies
    let requestReferer := c.Request.Referer
    let requestProtocol := c.Request.Proto
    let (bodyBytes, err, rest) := ReadAll c.Request.Body
    let c := { c with Request := { c.Request with Body := rest } }
    if err then .ok (r, h, c)
    else
      let requestBody := bodyBytes
      .ok (r.CreateApiCall nowMilli reqID apiPath apiMethod
        { Host := requestHost
          Protocol := requestProtocol
          Path := requestPath
          BodySize := requestBodySize
          Headers := requestHeaders
          QueryParams := requestQueryParams
          Body := requestBody
          FormValues := requestFormValues
          RemoteAddress := requestRemoteAddress
          UserAgent := requestUserAgent
          Cookies := requestCookies
          Referer := requestReferer }, h, c)

/-- Go `finalizeEchoRequest`.  Both type assertions panic on a value of
another type: the one on the context value, and the one that takes
`c.Response().Writer` as a `*responseWriter` to read its buffer.  The JSON
encoder `encode` sees the map objects as they are at this moment.  The
result is `none` when the caller stays blocked on the channel send. -/
def finalizeEchoRequest {σ : Type} (ops : ResponseOps σ)
    (encode : Heap → ApiCall → Except String String) (r : reporter) (nowMicro : Int)
    (h : Heap) (c : echoContext σ) : Except Panic (Option reporter) :=
  match c.Request.ContextRequestID with
  | none => .error (.interfaceConversion "string")
  | some reqID =>
    let responseBodySize := ops.Size c.Response
    match c.Writer with
    | .other => .error (.interfaceConversion "*responseWriter")
    | .capture w =>
      let responseBody := w.body
      let response : Response :=
        { Status := ops.Status c.Response
          BodySize := responseBodySize
          Headers := ops.Header c.Response
          Body := responseBody }
      .ok (r.FinalizeApiCall (encode h) nowMicro reqID response)

/-- A call the host makes on the capture wrapper. -/
inductive WriteCall where
  | Write (b : String)
  | WriteString (s : String)
  deriving DecidableEq, Repr

/-- The bytes passed to a call. -/
def WriteCall.bytes : WriteCall → String
  | .Write b => b
  | .WriteString s => s

/-- One call on the wrapper. -/
def responseWriter.call {σ : Type} (ops : ResponseOps σ) (w : responseWriter σ) :
    WriteCall → responseWriter σ × Nat × Option String
  | .Write b => w.Write ops b
  | .WriteString s => w.WriteString s

/-- A sequence of calls on the wrapper, in order: the wrapper afterwards and
what each call returned. -/
def responseWriter.calls {σ : Type} (ops : ResponseOps σ) :
    responseWriter σ → List WriteCall → responseWriter σ × List (Nat × Option String)
  | w, [] => (w, [])
  | w, k :: ks =>
    let (w1, res) := w.call ops k
    let (w2, ress) := responseWriter.calls ops w1 ks
    (w2, res :: ress)

/-- The same sequence of byte strings written to the response object itself,
without the wrapper. -/
def directWrites {σ : Type} (ops : ResponseOps σ) :
    σ → List String → σ × List (Nat × Option String)
  | u, [] => (u, [])
  | u, b :: bs =>
    let (u1, n, err) := ops.Write u b
    let (u2, ress) := directWrites ops u1 bs
    (u2, (n, err) :: ress)

/-- A response object that keeps every byte written to it and reports the
length written; its header map is nil. -/
def recordingOps : ResponseOps String where
  Write := fun u b => (u ++ b, b.utf8ByteSize, none)
  Status := fun _ => 200
  Size := fun u => u.utf8ByteSize
  Header := fun _ => none

/-- What a run of the host handler `next(c)` leaves behind: the map objects,
the context, and how the run ended, by returning an error value (`none` for
nil) or by a panic. -/
structure HandlerRun (σ : Type) where
  heap : Heap
  ctx : echoContext σ
  result : Except Panic (Option String)

/-- What a run of the per-request function leaves behind.  `reporter` is
`none` when the run stays blocked on the channel send and never ends;
otherwise `result` is how it ended: the handler's error value, or the panic
that leaves the function. -/
structure PluginRun (σ : Type) where
  reporter : Option reporter
  heap : Heap
  ctx : echoContext σ
  result : Except Panic (Option String)

/-- The per-request function returned by `ApiSnitchPlugin`.  `uuid` is
`uuid.New().String()`; `next` is the host handler, which may read the request
body, change map objects, replace the request or the writer, and call the
wrapper.  `finalizeEchoRequest` is deferred: it runs when the handler has
returned and when it has panicked, and a panic of its own is the one that
leaves the function.  A panic in `recordEchoRequest` comes before the `defer`
statement. -/
def ApiSnitchPlugin {σ : Type} (ops : ResponseOps σ)
    (encode : Heap → ApiCall → Except String String) (uuid : String)
    (nowMilli nowMicro : Int) (next : Heap → echoContext σ → HandlerRun σ)
    (r : reporter) (h : Heap) (c : echoContext σ) : PluginRun σ :=
  let c := { c with Request := { c.Request with ContextRequestID := some uuid } }
  let writer := newResponseWriter c.Response
  let c := { c with Writer := .capture writer }
  match recordEchoRequest r nowMilli h c with
  | .error p => { reporter := some r, heap := h, ctx := c, result := .error p }
  | .ok (r, h, c) =>
    let ran := next h c
    match finalizeEchoRequest ops encode r nowMicro ran.heap ran.ctx with
    | .error p => { reporter := some r, heap := ran.heap, ctx := ran.ctx, result := .error p }
    | .ok r' => { reporter := r', heap := ran.heap, ctx := ran.ctx, result := ran.result }

/-! ## Inputs used in the examples below -/

/-- A pending entry for the given request id. -/
def sampleCall (requestID : String) : ApiCall :=
  NewApiCall "/users/:id" "GET" requestID 1710000000000

/-- A cache holding one pending entry under the given request id. -/
def singletonCache (requestID : String) : apiCallCache :=
  mapSet NewApiCallCache requestID (sampleCall requestID)

/-- A cache holding pending entries under `a`, `b` and `a:b`. -/
def colonCache : apiCallCache :=
  mapSet (mapSet (singletonCache "a:b") "a" (sampleCall "a")) "b" (sampleCall "b")

/-- A response snapshot with the given status and body. -/
def sampleResponse (status : Int) (body : String) : Response :=
  { Status := status, BodySize := body.utf8ByteSize, Body := body }

/-- A cache whose entry under `r1` has been finalized once, with status 200
and body `hello`, 123 microseconds after it was created. -/
def finalizedCache : apiCallCache :=
  ((singletonCache "r1").FinalizeApiCall 1710000000000123 "r1"
    (sampleResponse 200 "hello")).1

/-- A reporter that has run the first statement of `Start`, with an empty
cache and an empty outbound channel. -/
def startedReporter : reporter :=
  (NewReporter "collector.example" "secret" NewApiCallCache).makeMessageOut

/-- Concatenation of byte strings, in order. -/
def concatBytes : List String → String
  | [] => ""
  | b :: bs => b ++ concatBytes bs

/-- A heap with one map object, the header map of the sample request. -/
def sampleHeap : Heap :=
  { content := fun a => if a = 0 then [("X-A", ["1"])] else [], free := 1 }

/-- The request `POST /users/42` with a three-byte body, as the plugin hands
it to `recordEchoRequest` (request id `r1` attached, wrapper installed on a
response object that records what reaches it). -/
def sampleContext : echoContext String :=
  { Request :=
      { Method := "POST"
        Host := "example.com"
        Proto := "HTTP/1.1"
        RemoteAddr := "1.2.3.4:5"
        ContentLength := 3
        URLPath := "/users/42"
        Header := some 0
        Body := { unread := "abc" }
        ContextRequestID := some "r1" }
    Path := "/users/:id"
    Response := ""
    Writer := .capture (newResponseWriter "") }

/-- The same request as the framework hands it to the plugin: no request id
in its context yet, and the framework's own writer in place. -/
def incomingContext : echoContext String :=
  { sampleContext with
    Request := { sampleContext.Request with ContextRequestID := none }
    Writer := .other }

/-- The calls of a handler that answers `hello` in two pieces. -/
def helloCalls : List WriteCall :=
  [.Write "he", .WriteString "llo"]

/-- A handler that makes the calls `helloCalls` on the wrapper it finds and
returns nil. -/
def helloHandler (h : Heap) (c : echoContext String) : HandlerRun String :=
  match c.Writer with
  | .capture w =>
    { heap := h
      ctx := { c with Writer := .capture (w.calls recordingOps helloCalls).1 }
      result := .ok none }
  | .other => { heap := h, ctx := c, result := .ok none }

/-- A handler that sets the request header `X-B` through the request's header
map, when that is not nil, and returns nil. -/
def headerSettingHandler (h : Heap) (c : echoContext String) : HandlerRun String :=
  match c.Request.Header with
  | none => { heap := h, ctx := c, result := .ok none }
  | some a =>
    { heap := h.store a (h.content a ++ [("X-B", ["2"])])
      ctx := c
      result := .ok none }

/-- A handler that puts a writer of another type in place of the wrapper and
returns nil. -/
def writerReplacingHandler (h : Heap) (c : echoContext String) : HandlerRun String :=
  { heap := h, ctx := { c with Writer := .other }, result := .ok none }

/-- A stand-in for the JSON encoder that writes the two bodies of a record. -/
def bodiesEncoder (_ : Heap) (call : ApiCall) : Except String String :=
  .ok (call.Request.Body ++ "|" ++ call.Response.Body)

/-- The `int64` range. -/
def inInt64 (x : Int) : Prop :=
  -2 ^ 63 ≤ x ∧ x < 2 ^ 63

instance (x : Int) : Decidable (inInt64 x) := by
  unfold inInt64
  infer_instance

/-! ## Properties -/

/-! ### Library lemmas -/

theorem splitChars_of_not_mem (sep : Char) (l : List Char) (h : sep ∉ l) :
    strings.splitChars sep l = [l] := by
  induction l with
  | nil => rfl
  | cons c cs ih =>
    have hc : c ≠ sep := fun e => h (by simp [e])
    have hcs : sep ∉ cs := fun m => h (by simp [m])
    simp [strings.splitChars, hc, ih hcs]

theorem split_ok_frame (id : String) :
    strings.Split ("OK:" ++ id) ':' = "OK" :: strings.Split id ':' := by
  have h : ("OK:" ++ id).data = 'O' :: 'K' :: ':' :: id.data := by
    simp [String.data_append]
  unfold strings.Split
  rw [h]
  simp [strings.splitChars]

theorem split_of_not_mem (id : String) (h : ':' ∉ id.data) :
    strings.Split id ':' = [id] := by
  simp [strings.Split, splitChars_of_not_mem ':' id.data h]

theorem hasPrefix_ok_frame (id : String) :
    strings.HasPrefix ("OK:" ++ id) "OK" = true := by
  simp [strings.HasPrefix, String.data_append]

/-! ### Cache lemmas -/

theorem deleteApiCall_self (c : apiCallCache) (k : String) :
    c.DeleteApiCall k k = none := by
  unfold apiCallCache.DeleteApiCall
  cases h : c k with
  | none => exact h
  | some v => simp [mapDelete]

theorem deleteApiCall_other (c : apiCallCache) (k k' : String) (h : k' ≠ k) :
    c.DeleteApiCall k k' = c k' := by
  unfold apiCallCache.DeleteApiCall
  cases c k with
  | none => rfl
  | some v => simp [mapDelete, h]

/-! ### C1: ack-eviction -/

/-- C1 (counterexample).  The cache holds an entry under the request id `a:b`
and the reader handles the frame `OK:a:b`.  The handler deletes the key `a`
(the text between the first and the second colon), and the entry under `a:b`
is still in the cache afterwards. -/
theorem ack_eviction_fails_for_id_with_colon :
    ∃ cache, handleMessage (singletonCache "a:b") ("OK:" ++ "a:b") = .ok cache ∧
      cache = (singletonCache "a:b").DeleteApiCall "a" ∧
      cache "a:b" = some (sampleCall "a:b") :=
  ⟨_, rfl, rfl, by decide⟩

/-- C1 (amended).  For every cache and every request id that contains no colon,
after the reader handles the frame `OK:` followed by the id, the handler has
not failed, the cache has no entry under the id, and every other key is as
before: the key deleted is the text after the `OK:` prefix. -/
theorem ack_eviction_colon_free (cache : apiCallCache) (id : String)
    (h : ':' ∉ id.data) :
    ∃ cache', handleMessage cache ("OK:" ++ id) = .ok cache' ∧
      cache' = cache.DeleteApiCall id ∧
      cache' id = none ∧
      ∀ k, k ≠ id → cache' k = cache k := by
  refine ⟨cache.DeleteApiCall id, ?_, rfl, deleteApiCall_self cache id,
    fun k hk => deleteApiCall_other cache id k hk⟩
  simp [handleMessage, hasPrefix_ok_frame, split_ok_frame, split_of_not_mem id h]

/-- C1 (witness).  The amended property at the request id `r1`, acked in a
cache that holds an entry under it. -/
theorem ack_eviction_colon_free_witness :
    ':' ∉ "r1".data ∧
    ∃ cache', handleMessage (singletonCache "r1") ("OK:" ++ "r1") = .ok cache' ∧
      cache' = (singletonCache "r1").DeleteApiCall "r1" ∧
      cache' "r1" = none ∧
      ∀ k, k ≠ "r1" → cache' k = singletonCache "r1" k :=
  ⟨by decide, ack_eviction_colon_free (singletonCache "r1") "r1" (by decide)⟩

/-- The key an ack deletes is the second field of the frame cut at colons:
`OK:a:b` evicts `a`, and leaves `b` and `a:b` in the cache. -/
theorem ack_deletes_second_field :
    ∃ cache, handleMessage colonCache "OK:a:b" = .ok cache ∧
      cache "a" = none ∧
      cache "b" = some (sampleCall "b") ∧
      cache "a:b" = some (sampleCall "a:b") :=
  ⟨_, rfl, by decide, by decide, by decide⟩

/-! ### C9: frames that are not acks -/

/-- C9 (counterexample).  The frame `OKAY:x` does not begin with `OK:`, yet
the handler treats it as an ack and deletes the entry under `x`. -/
theorem non_ack_frame_changes_cache :
    strings.HasPrefix "OKAY:x" "OK:" = false ∧
    singletonCache "x" "x" = some (sampleCall "x") ∧
    ∃ cache, handleMessage (singletonCache "x") "OKAY:x" = .ok cache ∧
      cache "x" = none :=
  ⟨by decide, by decide, _, rfl, by decide⟩

/-- C9 (amended).  For every cache and every frame that does not begin with
`OK` (frames beginning with `ERROR` and any other such text), the handler
does not fail and returns the cache unchanged. -/
theorem non_ok_frame_ignored (cache : apiCallCache) (messageStr : String)
    (h : strings.HasPrefix messageStr "OK" = false) :
    handleMessage cache messageStr = .ok cache := by
  unfold handleMessage
  rw [h]
  by_cases he : strings.HasPrefix messageStr "ERROR" = true <;> simp [he]

/-- C9 (witness).  The amended property at an `ERROR:` frame. -/
theorem non_ok_frame_ignored_witness :
    strings.HasPrefix "ERROR:boom" "OK" = false ∧
    handleMessage (singletonCache "x") "ERROR:boom" = .ok (singletonCache "x") :=
  ⟨by decide, non_ok_frame_ignored (singletonCache "x") "ERROR:boom" (by decide)⟩

/-- The frame `OK` (no colon) makes the handler index a one-element slice at
position 1: the reader goroutine panics, whatever the cache holds. -/
theorem ok_without_colon_panics (cache : apiCallCache) :
    handleMessage cache "OK" = .error (.indexOutOfRange 1 1) :=
  rfl

/-! ### C6, C7, C5: finalize at the cache -/

theorem wrapInt64_of_inInt64 (x : Int) (h : inInt64 x) : wrapInt64 x = x := by
  unfold inInt64 at h
  unfold wrapInt64
  norm_num at h ⊢
  omega

/-- C6.  For every cache with an entry `e` under the request id `k`, every
response snapshot `r` and every current time `nowMicro`, finalize returns `e`
with `Response = r`, `DurationMicro = nowMicro - e.Timestamp * 1000` (in
`int64` arithmetic, as the code computes it) and `Finalized = true`; the cache
afterwards maps `k` to the returned record and every other key as before.
When the product and the difference are within the `int64` range, the
duration is the exact integer `nowMicro - e.Timestamp * 1000`. -/
theorem finalize_known_key (c : apiCallCache) (k : String) (e : ApiCall) (r : Response)
    (nowMicro : Int) (h : c k = some e) :
    (c.FinalizeApiCall nowMicro k r).2 =
        some { e with
          Response := r
          DurationMicro := wrapInt64 (nowMicro - wrapInt64 (e.Timestamp * 1000))
          Finalized := true } ∧
      (c.FinalizeApiCall nowMicro k r).1 k = (c.FinalizeApiCall nowMicro k r).2 ∧
      (∀ k', k' ≠ k → (c.FinalizeApiCall nowMicro k r).1 k' = c k') ∧
      (inInt64 (e.Timestamp * 1000) → inInt64 (nowMicro - e.Timestamp * 1000) →
        wrapInt64 (nowMicro - wrapInt64 (e.Timestamp * 1000)) =
          nowMicro - e.Timestamp * 1000) := by
  refine ⟨?_, ?_, ?_, ?_⟩
  · simp [apiCallCache.FinalizeApiCall, h]
  · simp [apiCallCache.FinalizeApiCall, h, mapSet]
  · intro k' hk
    simp [apiCallCache.FinalizeApiCall, h, mapSet, hk]
  · intro h1 h2
    rw [wrapInt64_of_inInt64 _ h1, wrapInt64_of_inInt64 _ h2]

/-- C6 (witness).  The entry under `r1`, created at 1710000000000 ms, is
finalized at 1710000000000123 us. -/
theorem finalize_known_key_witness :
    singletonCache "r1" "r1" = some (sampleCall "r1") ∧
    (((singletonCache "r1").FinalizeApiCall 1710000000000123 "r1"
          (sampleResponse 200 "hello")).2 =
        some { sampleCall "r1" with
          Response := sampleResponse 200 "hello"
          DurationMicro :=
            wrapInt64 (1710000000000123 - wrapInt64 ((sampleCall "r1").Timestamp * 1000))
          Finalized := true } ∧
      ((singletonCache "r1").FinalizeApiCall 1710000000000123 "r1"
          (sampleResponse 200 "hello")).1 "r1" =
        ((singletonCache "r1").FinalizeApiCall 1710000000000123 "r1"
          (sampleResponse 200 "hello")).2 ∧
      (∀ k', k' ≠ "r1" →
        ((singletonCache "r1").FinalizeApiCall 1710000000000123 "r1"
          (sampleResponse 200 "hello")).1 k' = singletonCache "r1" k') ∧
      (inInt64 ((sampleCall "r1").Timestamp * 1000) →
        inInt64 (1710000000000123 - (sampleCall "r1").Timestamp * 1000) →
        wrapInt64 (1710000000000123 - wrapInt64 ((sampleCall "r1").Timestamp * 1000)) =
          1710000000000123 - (sampleCall "r1").Timestamp * 1000)) :=
  ⟨by decide,
    finalize_known_key (singletonCache "r1") "r1" (sampleCall "r1")
      (sampleResponse 200 "hello") 1710000000000123 (by decide)⟩

/-- C7.  For every cache and every request id with no entry in it, finalize
returns none and the cache afterwards is the cache before. -/
theorem finalize_unknown_key (c : apiCallCache) (k : String) (r : Response)
    (nowMicro : Int) (h : c k = none) :
    c.FinalizeApiCall nowMicro k r = (c, none) := by
  simp [apiCallCache.FinalizeApiCall, h]

/-- C7 (witness).  The id `zzz` was never created in a cache that holds `r1`. -/
theorem finalize_unknown_key_witness :
    singletonCache "r1" "zzz" = none ∧
    (singletonCache "r1").FinalizeApiCall 5 "zzz" (sampleResponse 200 "hello") =
      (singletonCache "r1", none) :=
  ⟨by decide,
    finalize_unknown_key (singletonCache "r1") "zzz" (sampleResponse 200 "hello") 5
      (by decide)⟩

/-- C5 (counterexample).  The entry under `r1` is already finalized (status
200, body `hello`, duration 123).  A further finalize with status 500 and
body `oops`, 877 microseconds later, replaces the stored response and
duration: the stored record is not the same as before. -/
theorem second_finalize_changes_record :
    (finalizedCache "r1").map (fun e => (e.Finalized, e.Response.Status, e.DurationMicro)) =
        some (true, 200, 123) ∧
      ((finalizedCache.FinalizeApiCall 1710000000001000 "r1"
          (sampleResponse 500 "oops")).1 "r1").map
          (fun e => (e.Finalized, e.Response.Status, e.DurationMicro)) =
        some (true, 500, 1000) ∧
      (finalizedCache.FinalizeApiCall 1710000000001000 "r1"
          (sampleResponse 500 "oops")).1 "r1" ≠ finalizedCache "r1" := by
  decide

/-- C5 (amended).  For every cache in which the entry `e` under the key `k`
is already finalized, a further finalize of `k` with the response `r` stores
`e` with the response replaced by `r` and the duration recomputed from the
current time; the finalized flag stays true and the path, method, request id,
request snapshot and timestamp stay those of `e`. -/
theorem refinalize_keeps_flag_overwrites_response (c : apiCallCache) (k : String)
    (e : ApiCall) (r : Response) (nowMicro : Int) (h : c k = some e)
    (hf : e.Finalized = true) :
    (c.FinalizeApiCall nowMicro k r).1 k =
        some { e with
          Response := r
          DurationMicro := wrapInt64 (nowMicro - wrapInt64 (e.Timestamp * 1000)) } ∧
      ((c.FinalizeApiCall nowMicro k r).1 k).map ApiCall.Finalized = some true := by
  constructor
  · simp [apiCallCache.FinalizeApiCall, h, mapSet, ← hf]
  · simp [apiCallCache.FinalizeApiCall, h, mapSet]

/-- C5 (witness).  The amended property at the finalized entry under `r1`. -/
theorem refinalize_keeps_flag_overwrites_response_witness :
    finalizedCache "r1" =
        some { sampleCall "r1" with
          Response := sampleResponse 200 "hello", DurationMicro := 123, Finalized := true } ∧
      ((finalizedCache.FinalizeApiCall 1710000000001000 "r1"
            (sampleResponse 500 "oops")).1 "r1" =
          some { sampleCall "r1" with
            Response := sampleResponse 500 "oops"
            DurationMicro := wrapInt64 (1710000000001000 - wrapInt64 (1710000000000 * 1000))
            Finalized := true } ∧
        ((finalizedCache.FinalizeApiCall 1710000000001000 "r1"
            (sampleResponse 500 "oops")).1 "r1").map ApiCall.Finalized = some true) :=
  ⟨by decide,
    refinalize_keeps_flag_overwrites_response finalizedCache "r1"
      { sampleCall "r1" with
        Response := sampleResponse 200 "hello", DurationMicro := 123, Finalized := true }
      (sampleResponse 500 "oops") 1710000000001000 (by decide) rfl⟩

/-! ### C4: finalize without create, at the reporter -/

/-- C4 (the code at the failing input).  The reporter has an empty cache and
an empty outbound channel; `FinalizeApiCall` is invoked for the id `zzz`,
which was never created.  The call returns, and the channel then holds one
message, the JSON text `null`: the nil pointer returned by the cache is
marshalled and sent. -/
theorem finalize_without_create_enqueues_null (encode : ApiCall → Except String String) :
    startedReporter.apiCallCache "zzz" = none ∧
      startedReporter.messageOut = some [] ∧
      (startedReporter.FinalizeApiCall encode 1710000000000123 "zzz"
          (sampleResponse 200 "hello")).map reporter.messageOut =
        some (some ["null"]) :=
  ⟨rfl, rfl, rfl⟩

/-! ### C2: the capture wrapper forwards -/

/-- C2 (the code at the failing input).  The host calls `Write("a")`,
`WriteString("b")`, `Write("c")` on a wrapper around a response object that
records what reaches it.  The object receives `ac`; writing the same three
byte strings to the object itself gives `abc`.  `WriteString` returns the
buffer's result and forwards nothing. -/
theorem writeString_is_not_forwarded :
    ((newResponseWriter "").calls recordingOps
        [.Write "a", .WriteString "b", .Write "c"]).1.Response = "ac" ∧
      (directWrites recordingOps "" ["a", "b", "c"]).1 = "abc" := by
  decide

/-- Calls of `Write` alone are forwarded: the response object ends in the
state, and each call returns the result, of the same writes made on the
object itself. -/
theorem write_calls_forwarded {σ : Type} (ops : ResponseOps σ) (w : responseWriter σ)
    (bs : List String) :
    (w.calls ops (bs.map WriteCall.Write)).1.Response = (directWrites ops w.Response bs).1 ∧
      (w.calls ops (bs.map WriteCall.Write)).2 = (directWrites ops w.Response bs).2 := by
  induction bs generalizing w with
  | nil => exact ⟨rfl, rfl⟩
  | cons b bs ih =>
    have h := ih { Response := (ops.Write w.Response b).1, body := w.body ++ b }
    simp only [List.map, responseWriter.calls, responseWriter.call, responseWriter.Write,
      directWrites]
    exact ⟨h.1, by rw [h.2]⟩

/-! ### C8, C3: the request snapshot -/

/-- What `recordEchoRequest` does when the context carries the request id
and the body is read without error: it does not panic; the query map is a new
map object; the entry created has the route template, the method and the
request id at the top level, and a snapshot that carries every attribute read
from the request except the method, whose field is left at its zero value;
the body stream is left at its end. -/
theorem recorded_entry {σ : Type} (r : reporter) (nowMilli : Int) (h : Heap)
    (c : echoContext σ) (reqID : String) (hid : c.Request.ContextRequestID = some reqID)
    (hb : c.Request.Body.failing = false) :
    recordEchoRequest r nowMilli h c =
      .ok
        ({ r with
            apiCallCache :=
              mapSet r.apiCallCache reqID
                { ApiPath := c.Path
                  ApiMethod := c.Request.Method
                  RequestID := reqID
                  Timestamp := nowMilli
                  Request :=
                    { Host := c.Request.Host
                      Path := c.Request.URLPath
                      Method := ""
                      Protocol := c.Request.Proto
                      QueryParams := some h.free
                      BodySize := c.Request.ContentLength
                      Body := c.Request.Body.unread
                      Headers := c.Request.Header
                      FormValues := c.Request.Form
                      RemoteAddress := c.Request.RemoteAddr
                      UserAgent := c.Request.UserAgent
                      Cookies := cookiesFromRequest c.Request.Cookies
                      Referer := c.Request.Referer } } },
          (h.make c.Request.URLQuery).1,
          { c with
            Request := { c.Request with Body := { c.Request.Body with unread := "" } } }) := by
  simp [recordEchoRequest, hid, ReadAll, hb, reporter.CreateApiCall,
    apiCallCache.CreateApiCall, NewApiCall, Heap.make]

/-- C8 (the code at the failing input).  For the request `POST /users/42` the
entry created by `recordEchoRequest` has the method `POST` at the top level
and the empty string as the method of its request snapshot. -/
theorem snapshot_method_left_empty :
    sampleContext.Request.Method = "POST" ∧
      ∃ r h c,
        recordEchoRequest startedReporter 1710000000000 sampleHeap sampleContext =
          .ok (r, h, c) ∧
        (r.apiCallCache "r1").map (fun e => (e.ApiMethod, e.Request.Method, e.Request.Path)) =
          some ("POST", "", "/users/42") :=
  ⟨rfl, _, _, _, rfl, by decide⟩

/-- C3 (counterexample).  The request carries the body `abc`.  After
`recordEchoRequest` the snapshot holds `abc`, and a handler that reads the
request body to its end gets the empty byte string. -/
theorem request_body_not_restored :
    sampleContext.Request.Body.unread = "abc" ∧
      ∃ r h c,
        recordEchoRequest startedReporter 1710000000000 sampleHeap sampleContext =
          .ok (r, h, c) ∧
        (r.apiCallCache "r1").map (fun e => e.Request.Body) = some "abc" ∧
        (ReadAll c.Request.Body).1 = "" ∧
        (ReadAll c.Request.Body).1 ≠ sampleContext.Request.Body.unread :=
  ⟨rfl, _, _, _, rfl, by decide, by decide, by decide⟩

/-- C3 (amended).  For every request whose body `B` is read without error,
after `recordEchoRequest` (which does not panic on a context that carries the
request id) the snapshot stored under the request id has the body `B`, and
the request body left for the host handler is at its end: read to the end it
yields the empty byte string, without error. -/
theorem request_body_consumed {σ : Type} (r : reporter) (nowMilli : Int) (h : Heap)
    (c : echoContext σ) (reqID : String) (hid : c.Request.ContextRequestID = some reqID)
    (hb : c.Request.Body.failing = false) :
    ∃ r' h' c',
      recordEchoRequest r nowMilli h c = .ok (r', h', c') ∧
      (r'.apiCallCache reqID).map (fun e => e.Request.Body) = some c.Request.Body.unread ∧
      (ReadAll c'.Request.Body).1 = "" ∧
      (ReadAll c'.Request.Body).2.1 = false := by
  refine ⟨_, _, _, recorded_entry r nowMilli h c reqID hid hb, ?_, ?_, ?_⟩
  · simp [mapSet]
  · simp [ReadAll]
  · simp [ReadAll, hb]

/-- C3 (witness).  The amended property at the request with the body `abc`. -/
theorem request_body_consumed_witness :
    sampleContext.Request.ContextRequestID = some "r1" ∧
      sampleContext.Request.Body.failing = false ∧
      ∃ r' h' c',
        recordEchoRequest startedReporter 1710000000000 sampleHeap sampleContext =
          .ok (r', h', c') ∧
        (r'.apiCallCache "r1").map (fun e => e.Request.Body) =
          some sampleContext.Request.Body.unread ∧
        (ReadAll c'.Request.Body).1 = "" ∧
        (ReadAll c'.Request.Body).2.1 = false :=
  ⟨rfl, rfl,
    request_body_consumed startedReporter 1710000000000 sampleHeap sampleContext "r1" rfl rfl⟩

/-! ### C10: body fidelity -/

theorem calls_body {σ : Type} (ops : ResponseOps σ) (w : responseWriter σ)
    (cs : List WriteCall) :
    (w.calls ops cs).1.body = w.body ++ concatBytes (cs.map WriteCall.bytes) := by
  induction cs generalizing w with
  | nil => simp [responseWriter.calls, concatBytes]
  | cons k ks ih =>
    cases k with
    | Write b =>
      simp only [responseWriter.calls, responseWriter.call, responseWriter.Write, List.map,
        WriteCall.bytes, concatBytes]
      rw [ih]
      simp [String.append_assoc]
    | WriteString s =>
      simp only [responseWriter.calls, responseWriter.call, responseWriter.WriteString,
        List.map, WriteCall.bytes, concatBytes]
      rw [ih]
      simp [String.append_assoc]

/-- Finalize at the reporter on a known key, with room in the channel: the
call returns, the cache holds the finalized record, and the channel has got
the encoded record, or nothing when the encoder failed. -/
theorem reporter_finalize_known (encode : ApiCall → Except String String) (r : reporter)
    (nowMicro : Int) (k : String) (response : Response) (e : ApiCall) (q : List String)
    (he : r.apiCallCache k = some e) (hq : r.messageOut = some q)
    (hroom : q.length < messageOutCap) :
    ∃ r', r.FinalizeApiCall encode nowMicro k response = some r' ∧
      r'.apiCallCache k =
        some { e with
          Response := response
          DurationMicro := wrapInt64 (nowMicro - wrapInt64 (e.Timestamp * 1000))
          Finalized := true } ∧
      r'.messageOut =
        some (match encode { e with
            Response := response
            DurationMicro := wrapInt64 (nowMicro - wrapInt64 (e.Timestamp * 1000))
            Finalized := true } with
          | .ok j => q ++ [j]
          | .error _ => q) := by
  simp only [reporter.FinalizeApiCall, apiCallCache.FinalizeApiCall, he, jsonMarshal]
  cases encode { e with
      Response := response
      DurationMicro := wrapInt64 (nowMicro - wrapInt64 (e.Timestamp * 1000))
      Finalized := true } with
  | error m => exact ⟨_, rfl, by simp [mapSet], by simp [hq]⟩
  | ok j =>
    simp only [chanSend, hq, hroom, if_true]
    exact ⟨_, rfl, by simp [mapSet], by simp⟩

/-- On a context that carries the request id and has the capture wrapper as
its writer, `finalizeEchoRequest` does not panic and hands the reporter the
response snapshot whose body is the wrapper's buffer. -/
theorem finalizeEchoRequest_capture {σ : Type} (ops : ResponseOps σ)
    (encode : Heap → ApiCall → Except String String) (r : reporter) (nowMicro : Int)
    (h : Heap) (c : echoContext σ) (reqID : String) (w : responseWriter σ)
    (hid : c.Request.ContextRequestID = some reqID) (hw : c.Writer = .capture w) :
    finalizeEchoRequest ops encode r nowMicro h c =
      .ok (r.FinalizeApiCall (encode h) nowMicro reqID
        { Status := ops.Status c.Response
          BodySize := ops.Size c.Response
          Headers := ops.Header c.Response
          Body := w.body }) := by
  simp [finalizeEchoRequest, hid, hw]

/-- The per-request function after a `recordEchoRequest` that returned: the
handler runs on what `recordEchoRequest` left, and `finalizeEchoRequest` runs
on what the handler left. -/
theorem plugin_after_record {σ : Type} (ops : ResponseOps σ)
    (encode : Heap → ApiCall → Except String String) (uuid : String)
    (nowMilli nowMicro : Int) (next : Heap → echoContext σ → HandlerRun σ)
    (r : reporter) (h : Heap) (c : echoContext σ)
    (r1 : reporter) (h1 : Heap) (c1 : echoContext σ)
    (hrec : recordEchoRequest r nowMilli h
      { c with
        Request := { c.Request with ContextRequestID := some uuid }
        Writer := .capture (newResponseWriter c.Response) } = .ok (r1, h1, c1)) :
    ApiSnitchPlugin ops encode uuid nowMilli nowMicro next r h c =
      match finalizeEchoRequest ops encode r1 nowMicro (next h1 c1).heap (next h1 c1).ctx with
      | .error p =>
        { reporter := some r1, heap := (next h1 c1).heap, ctx := (next h1 c1).ctx,
          result := .error p }
      | .ok r' =>
        { reporter := r', heap := (next h1 c1).heap, ctx := (next h1 c1).ctx,
          result := (next h1 c1).result } := by
  unfold ApiSnitchPlugin
  simp only [] at hrec ⊢
  rw [hrec]

/-- C10.  Body fidelity from the entry of a request to the stored record.
For every response object, JSON encoder, host handler, heap, reporter with
room in its outbound channel and request whose body is read without error:
let `run` be the run of the per-request function.  If the wrapper it
installed has, when the handler is done, received exactly the calls `cs` of
`Write` and `WriteString`, and the request still carries the request id, then
the function has returned, the cache holds under the request id a finalized
record whose response body is the concatenation, in call order, of the bytes
passed to those calls, and the channel has got the JSON encoding of that
record (nothing when the encoder failed). -/
theorem body_fidelity {σ : Type} (ops : ResponseOps σ)
    (encode : Heap → ApiCall → Except String String) (uuid : String)
    (nowMilli nowMicro : Int) (next : Heap → echoContext σ → HandlerRun σ)
    (r : reporter) (h : Heap) (c : echoContext σ) (cs : List WriteCall) (q : List String)
    (run : PluginRun σ)
    (hrun : ApiSnitchPlugin ops encode uuid nowMilli nowMicro next r h c = run)
    (hbody : c.Request.Body.failing = false)
    (hq : r.messageOut = some q) (hroom : q.length < messageOutCap)
    (hw : run.ctx.Writer = .capture ((newResponseWriter c.Response).calls ops cs).1)
    (hid : run.ctx.Request.ContextRequestID = some uuid) :
    ∃ r' e, run.reporter = some r' ∧ r'.apiCallCache uuid = some e ∧
      e.RequestID = uuid ∧ e.Finalized = true ∧
      e.Response.Body = concatBytes (cs.map WriteCall.bytes) ∧
      r'.messageOut =
        some (match encode run.heap e with
          | .ok j => q ++ [j]
          | .error _ => q) := by
  subst hrun
  obtain ⟨r1, h1, c1, e0, hrec, he0, hid0, hq1⟩ :
      ∃ r1 h1 c1 e0,
        recordEchoRequest r nowMilli h
          { c with
            Request := { c.Request with ContextRequestID := some uuid }
            Writer := .capture (newResponseWriter c.Response) } = .ok (r1, h1, c1) ∧
        r1.apiCallCache uuid = some e0 ∧ e0.RequestID = uuid ∧ r1.messageOut = some q :=
    ⟨_, _, _, _, recorded_entry r nowMilli h _ uuid rfl hbody, if_pos rfl, rfl, hq⟩
  rw [plugin_after_record ops encode uuid nowMilli nowMicro next r h c r1 h1 c1 hrec]
    at hw hid ⊢
  generalize next h1 c1 = ran at hw hid ⊢
  have hctx : ∀ x : Except Panic (Option reporter),
      (match x with
        | .error p =>
          ({ reporter := some r1, heap := ran.heap, ctx := ran.ctx, result := .error p } :
            PluginRun σ)
        | .ok r' =>
          { reporter := r', heap := ran.heap, ctx := ran.ctx, result := ran.result }).ctx =
        ran.ctx := by
    intro x
    cases x <;> rfl
  have hheap : ∀ x : Except Panic (Option reporter),
      (match x with
        | .error p =>
          ({ reporter := some r1, heap := ran.heap, ctx := ran.ctx, result := .error p } :
            PluginRun σ)
        | .ok r' =>
          { reporter := r', heap := ran.heap, ctx := ran.ctx, result := ran.result }).heap =
        ran.heap := by
    intro x
    cases x <;> rfl
  rw [hctx] at hw hid
  rw [hheap]
  rw [finalizeEchoRequest_capture ops encode r1 nowMicro ran.heap ran.ctx uuid _ hid hw]
  obtain ⟨r', hr', hstored, hout⟩ :=
    reporter_finalize_known (encode ran.heap) r1 nowMicro uuid
      { Status := ops.Status ran.ctx.Response
        BodySize := ops.Size ran.ctx.Response
        Headers := ops.Header ran.ctx.Response
        Body := ((newResponseWriter c.Response).calls ops cs).1.body } e0 q he0 hq1 hroom
  refine ⟨r', _, ?_, hstored, hid0, rfl, ?_, hout⟩
  · simp only [hr']
  · simp [calls_body, newResponseWriter]

/-- C10 (witness).  The request `POST /users/42` with the body `abc` is
answered by a handler that calls `Write("he")` and `WriteString("llo")`: the
record stored under `r1` has the response body `hello`, and the stand-in
encoder's output for it is the one message in the channel. -/
theorem body_fidelity_witness :
    incomingContext.Request.Body.failing = false ∧
      startedReporter.messageOut = some [] ∧
      (ApiSnitchPlugin recordingOps bodiesEncoder "r1" 1710000000000 1710000000000123
          helloHandler startedReporter sampleHeap incomingContext).ctx.Writer =
        .capture ((newResponseWriter incomingContext.Response).calls recordingOps
          helloCalls).1 ∧
      concatBytes (helloCalls.map WriteCall.bytes) = "hello" ∧
      ((ApiSnitchPlugin recordingOps bodiesEncoder "r1" 1710000000000 1710000000000123
          helloHandler startedReporter sampleHeap incomingContext).reporter.bind
          (fun r => r.messageOut)) = some ["abc|hello"] ∧
      ∃ r' e,
        (ApiSnitchPlugin recordingOps bodiesEncoder "r1" 1710000000000 1710000000000123
          helloHandler startedReporter sampleHeap incomingContext).reporter = some r' ∧
        r'.apiCallCache "r1" = some e ∧
        e.RequestID = "r1" ∧ e.Finalized = true ∧
        e.Response.Body = concatBytes (helloCalls.map WriteCall.bytes) ∧
        r'.messageOut =
          some (match bodiesEncoder
              (ApiSnitchPlugin recordingOps bodiesEncoder "r1" 1710000000000 1710000000000123
                helloHandler startedReporter sampleHeap incomingContext).heap e with
            | .ok j => [] ++ [j]
            | .error _ => []) :=
  ⟨rfl, rfl, rfl, by decide, by decide,
    body_fidelity recordingOps bodiesEncoder "r1" 1710000000000 1710000000000123
      helloHandler startedReporter sampleHeap incomingContext helloCalls [] _ rfl rfl rfl
      (by decide) rfl rfl⟩

/-- A header that the handler sets after the snapshot was taken is in the
stored record: the record holds the request's header map itself. -/
theorem header_set_by_handler_reaches_record :
    sampleHeap.read incomingContext.Request.Header = [("X-A", ["1"])] ∧
      ((ApiSnitchPlugin recordingOps bodiesEncoder "r1" 1710000000000 1710000000000123
          headerSettingHandler startedReporter sampleHeap incomingContext).reporter.bind
          (fun r => r.apiCallCache "r1")).map
          (fun e =>
            (ApiSnitchPlugin recordingOps bodiesEncoder "r1" 1710000000000 1710000000000123
              headerSettingHandler startedReporter sampleHeap incomingContext).heap.read
              e.Request.Headers) =
        some [("X-A", ["1"]), ("X-B", ["2"])] := by
  decide

/-- When the handler has put another writer in place of the wrapper, the
deferred `finalizeEchoRequest` panics on its type assertion; the record stays
pending and nothing is sent. -/
theorem finalize_panics_when_writer_replaced :
    (ApiSnitchPlugin recordingOps bodiesEncoder "r1" 1710000000000 1710000000000123
        writerReplacingHandler startedReporter sampleHeap incomingContext).result =
      .error (.interfaceConversion "*responseWriter") ∧
      ((ApiSnitchPlugin recordingOps bodiesEncoder "r1" 1710000000000 1710000000000123
          writerReplacingHandler startedReporter sampleHeap incomingContext).reporter.map
          (fun r => ((r.apiCallCache "r1").map ApiCall.Finalized, r.messageOut))) =
        some (some false, some []) :=
  ⟨rfl, by decide⟩

end apisnitch
